import Mathlib

/-!
Verification of the host-side PRU485 communication protocol implemented in
`src/uio_pruss.c` (character-device part of the PRUSS UIO driver).

The mapped PRUSS I/O region is modelled as a total byte map `Region : Nat → Nat`
indexed by the absolute byte offset from the start of the I/O region.  The
character-device entry points compute `p = ioremap(base) + PRUSS_SHAREDRAM_BASE`
and work relative to `p`, so shared-RAM field offsets from the source's
`enum offset` live at absolute offset `PRUSS_SHAREDRAM_BASE + field`.
`iowrite8 / iowrite16 / iowrite32` become little-endian byte stores; `ioread8`
reads one byte.  Blocking primitives (`wait_for_completion`, the status
busy-poll) are recorded as flags of the transaction's outcome.
-/

/-- A byte-addressable I/O region: absolute offset to stored byte. -/
def Region : Type := Nat → Nat

/-- `iowrite8`: store one byte (values are truncated to 8 bits as `iowrite8` does). -/
def wr8 (r : Region) (off v : Nat) : Region :=
  fun a => if a = off then v % 256 else r a

/-- `ioread8`: read one byte. -/
def rd8 (r : Region) (off : Nat) : Nat := r off % 256

/-- `iowrite16` on a little-endian host: two byte stores. -/
def wr16le (r : Region) (off v : Nat) : Region :=
  wr8 (wr8 r off (v % 2 ^ 16)) (off + 1) (v % 2 ^ 16 / 2 ^ 8)

/-- `iowrite32` on a little-endian host: four byte stores of the 32-bit value. -/
def wr32le (r : Region) (off v : Nat) : Region :=
  wr8 (wr8 (wr8 (wr8 r off (v % 2 ^ 32)) (off + 1) (v % 2 ^ 32 / 2 ^ 8))
    (off + 2) (v % 2 ^ 32 / 2 ^ 16)) (off + 3) (v % 2 ^ 32 / 2 ^ 24)

/-- A run of consecutive `iowrite8`s: the payload-copy loop of `dev_write`. -/
def wrList (r : Region) (off : Nat) : List Nat → Region
  | [] => r
  | v :: vs => wrList (wr8 r off v) (off + 1) vs

/- Constants from the source. -/

def PRUSS_SHAREDRAM_BASE : Nat := 0x10000
def PINTC_HIEISR : Nat := 0x0034
def PRU_INTC_SECR1_REG : Nat := 0x280
def PRU_ARM_INTERRUPT : Nat := 20
def PRU_EVTOUT : Nat := 3
def SZ_12K : Nat := 0x3000
def OLD_MESSAGE : Nat := 0x55
def MESSAGE_TO_SEND : Nat := 0xff
def PINTC_HIDISR : Nat := 0x0038
def PINTC_HIPIR : Nat := 0x0900
def HIPIR_NOPEND : Nat := 0x80000000

/- `enum offset` from the source. -/

def STATUS_OFFSET : Nat := 1
def BAUD_BRGCONFIG_OFFSET : Nat := 2
def BAUD_LSB_OFFSET : Nat := 3
def BAUD_MSB_OFFSET : Nat := 4
def TIMEOUT_OFFSET : Nat := 6
def HW_ADDR_OFFSET : Nat := 24
def MODE_OFFSET : Nat := 25
def BAUD_LENGTH_OFFSET : Nat := 26
def SYNC_STEP_OFFSET : Nat := 50
def MODE_COUNTER_OFFSET : Nat := 80
def SHRAM_WRITE_OFFSET : Nat := 0x64
def SHRAM_READ_OFFSET : Nat := 0x1800

/-- `'M'` and `'S'` as byte values. -/
def MODE_MASTER : Nat := 77
def MODE_SLAVE : Nat := 83

/-- Absolute offset of the shared-RAM window inside the I/O region
(the char-device code adds `PRUSS_SHAREDRAM_BASE` to the mapped base). -/
def SHRAM : Nat := PRUSS_SHAREDRAM_BASE

/-- The per-rate constants assigned by the `switch` of `__dev_config_baudrate`:
`(brgconfig, div_lsb, div_msb, one_byte_length_ns)`. -/
def baudProfile : Nat → Option (Nat × Nat × Nat × Nat)
  | 6 => some (0x28, 0x02, 0x00, 1667)
  | 10 => some (0x28, 0x01, 0x00, 1000)
  | 12 => some (0x24, 0x01, 0x00, 833)
  | 9600 => some (0x0a, 0x86, 0x01, 1041666)
  | 14400 => some (0x07, 0x04, 0x01, 694444)
  | 19200 => some (0x05, 0xc3, 0x00, 694444)
  | 38400 => some (0x15, 0xc3, 0x00, 260416)
  | 57600 => some (0x27, 0x04, 0x01, 173611)
  | 115200 => some (0x09, 0x20, 0x00, 86805)
  | _ => none

/-- `__dev_config_baudrate(p, baudrate)`: on a table hit writes the three baud
registers at `p+2, p+3, p+4` and the 3-byte little-endian `one_byte_length_ns`
at `p+26..p+28`, returning 0; on a miss returns `-EINVAL` without touching the
region.  The result pairs the region after the call with the return value. -/
def dev_config_baudrate (p : Nat) (r : Region) (baudrate : Nat) : Region × Int :=
  match baudProfile baudrate with
  | none => (r, -22)
  | some (brgconfig, div_lsb, div_msb, one_byte_length_ns) =>
    let r1 := wr8 r (p + BAUD_BRGCONFIG_OFFSET) brgconfig
    let r2 := wr8 r1 (p + BAUD_LSB_OFFSET) div_lsb
    let r3 := wr8 r2 (p + BAUD_MSB_OFFSET) div_msb
    let r4 := wr8 r3 (p + BAUD_LENGTH_OFFSET) (one_byte_length_ns % 256)
    let r5 := wr8 r4 (p + BAUD_LENGTH_OFFSET + 1) (one_byte_length_ns / 2 ^ 8 % 256)
    let r6 := wr8 r5 (p + BAUD_LENGTH_OFFSET + 2) (one_byte_length_ns / 2 ^ 16 % 256)
    (r6, 0)

/-- The supported baud-rate set named by the spec. -/
def supportedRates : List Nat := [6, 10, 12, 9600, 14400, 19200, 38400, 57600, 115200]

/-- The six byte offsets written by a successful `__dev_config_baudrate`. -/
def baudWriteOffsets (p : Nat) : List Nat :=
  [p + BAUD_BRGCONFIG_OFFSET, p + BAUD_LSB_OFFSET, p + BAUD_MSB_OFFSET,
    p + BAUD_LENGTH_OFFSET, p + BAUD_LENGTH_OFFSET + 1, p + BAUD_LENGTH_OFFSET + 2]

/-- The loop body of `__dev_clean_sram`: `for (count = 0; count < n; count++)
iowrite8(0, p + count);`. -/
def cleanLoop (p : Nat) (r : Region) (n : Nat) : Region :=
  (List.range n).foldl (fun acc count => wr8 acc (p + count) 0) r

/-- `__dev_clean_sram(p)`: zeroes the 100 bytes `p .. p+99` and returns 0.
The ioctl dispatcher passes `p = base + PRUSS_SHAREDRAM_BASE`. -/
def dev_clean_sram (p : Nat) (r : Region) : Region × Int :=
  (cleanLoop p r 100, 0)

/-- `__dev_set_sync_stop(p)`: fails with `-EINVAL` unless the mode byte at
`p+25` reads `'M'`; on success writes 0 at `p+5`. -/
def dev_set_sync_stop (p : Nat) (r : Region) : Region × Int :=
  if rd8 r (p + MODE_OFFSET) ≠ MODE_MASTER then (r, -22)
  else (wr8 r (p + 5) 0, 0)

/-- `__dev_set_sync_step(p)`: writes the fixed 7-byte program at `p+50..p+56`. -/
def dev_set_sync_step (p : Nat) (r : Region) : Region × Int :=
  (wrList r (p + SYNC_STEP_OFFSET) [0x06, 0xff, 0x50, 0x00, 0x01, 0x0c, 0xa4], 0)

/-- `__dev_set_sync_counter(p, n)`: `iowrite16(n, p + MODE_COUNTER_OFFSET)`. -/
def dev_set_sync_counter (p : Nat) (r : Region) (sync_counter : Nat) : Region × Int :=
  (wr16le r (p + MODE_COUNTER_OFFSET) sync_counter, 0)

/-- `__dev_get_hw_addr()`: samples the five input pins P8_31..P8_35 and ORs
them into bits 0..4 of the address. -/
def dev_get_hw_addr (p31 p32 p33 p34 p35 : Bool) : Nat :=
  let addr := 0
  let addr := if p31 then addr ||| 1 else addr
  let addr := if p32 then addr ||| 2 else addr
  let addr := if p33 then addr ||| 4 else addr
  let addr := if p34 then addr ||| 8 else addr
  let addr := if p35 then addr ||| 16 else addr
  addr

/- `enum ioctl_cmd` from the source (values start at 10). -/

def PRUSS_CLEAN : Nat := 10
def PRUSS_MODE : Nat := 11
def PRUSS_SYNC_STEP : Nat := 12
def PRUSS_SET_COUNTER : Nat := 13
def PRUSS_GET_HW_ADDRESS : Nat := 14
def PRUSS_BAUDRATE : Nat := 15
def PRUSS_TIMEOUT : Nat := 16

/-- `dev_unlocked_ioctl(filep, cmd, arg)` with a live device: `p` is
`ioremap(base) + PRUSS_SHAREDRAM_BASE`, i.e. absolute offset `SHRAM`.
`pins` supplies the GPIO samples consumed by `PRUSS_GET_HW_ADDRESS`.
`arg` is the `unsigned long` ioctl argument (32-bit on this platform);
arithmetic that can wrap is reduced `% 2^32`.  Returns the region after the
call and the return value. -/
def dev_unlocked_ioctl (pins : Bool × Bool × Bool × Bool × Bool) (r : Region)
    (cmd arg : Nat) : Region × Int :=
  if cmd = PRUSS_MODE then
    if arg = 77 ∨ arg = 83 then
      let r1 := wr8 r (SHRAM + MODE_OFFSET) arg
      let r2 := (dev_set_sync_stop SHRAM r1).fst
      let r3 := if arg = 83 then wr8 r2 (SHRAM + STATUS_OFFSET) OLD_MESSAGE else r2
      (r3, 0)
    else (r, -22)
  else if cmd = PRUSS_BAUDRATE then
    dev_config_baudrate SHRAM r arg
  else if cmd = PRUSS_SYNC_STEP then
    dev_set_sync_step SHRAM r
  else if cmd = PRUSS_CLEAN then
    dev_clean_sram SHRAM r
  else if cmd = PRUSS_SET_COUNTER then
    dev_set_sync_counter SHRAM r arg
  else if cmd = PRUSS_GET_HW_ADDRESS then
    (wr8 r (SHRAM + HW_ADDR_OFFSET)
      (dev_get_hw_addr pins.1 pins.2.1 pins.2.2.1 pins.2.2.2.1 pins.2.2.2.2), 0)
  else if cmd = PRUSS_TIMEOUT then
    let a := arg * 66600 % 2 ^ 32
    let r1 := wr8 r (SHRAM + TIMEOUT_OFFSET) (a % 256)
    let r2 := wr8 r1 (SHRAM + TIMEOUT_OFFSET + 1) (if a > 8 then 1 else 0)
    let r3 := wr8 r2 (SHRAM + TIMEOUT_OFFSET + 2) (if a > 16 then 1 else 0)
    let r4 := wr8 r3 (SHRAM + TIMEOUT_OFFSET + 3) (if a > 24 then 1 else 0)
    (r4, 0)
  else (r, -22)

/-- Outcome of one `dev_read` call with a live device: the host-side message
buffer after the copy loop, the byte count handed to `copy_to_user`, and the
return value. -/
structure ReadOutcome where
  message : List Nat
  copied : Nat
  ret : Int

/-- `dev_read(filep, buffer, len, offset)`: copies `SZ_12K` bytes starting at
`p = ioremap(base) + PRUSS_SHAREDRAM_BASE` into the global `message` buffer,
then `copy_to_user(buffer, message, count)` with `count` left at `SZ_12K` by
the loop, and returns 0.  The caller's `len` and `offset` are never read. -/
def dev_read (r : Region) (len offset : Nat) : ReadOutcome :=
  { message := (List.range SZ_12K).map fun count => rd8 r (SHRAM + count)
    copied := SZ_12K
    ret := 0 }

/-- Outcome of one `dev_write` call with a live device: the region after all
host-side stores, whether the call blocked on `intr_completion`, whether it
busy-polled the status byte for `OLD_MESSAGE` before returning, and the
return value. -/
structure WriteOutcome where
  region : Region
  waited : Bool
  polledUntilOld : Bool
  ret : Int

/-- `dev_write(filep, buffer, len, offset)`: writes `len` with `iowrite32` at
`p + SHRAM_WRITE_OFFSET`, copies the payload bytes one `iowrite8` at a time
starting at `p + SHRAM_WRITE_OFFSET + 4`, sets the status byte to
`MESSAGE_TO_SEND`, blocks in `wait_for_completion`, then clears the pending
system event (`1 << PRU_ARM_INTERRUPT` into `SECR1`) and re-enables the event
line (`1 << PRU_EVTOUT` into `HIEISR`), both at `intrc = base + pintc_base`;
finally, if the mode byte reads `'M'`, busy-polls the status byte until it
reads `OLD_MESSAGE`.  Returns `len`. -/
def dev_write (pintc_base : Nat) (r : Region) (payload : List Nat) : WriteOutcome :=
  let len := payload.length
  let r1 := wr32le r (SHRAM + SHRAM_WRITE_OFFSET) len
  let r2 := wrList r1 (SHRAM + SHRAM_WRITE_OFFSET + 4) payload
  let r3 := wr8 r2 (SHRAM + STATUS_OFFSET) MESSAGE_TO_SEND
  let r4 := wr32le r3 (pintc_base + PRU_INTC_SECR1_REG) (2 ^ PRU_ARM_INTERRUPT)
  let r5 := wr32le r4 (pintc_base + PINTC_HIEISR) (2 ^ PRU_EVTOUT)
  { region := r5
    waited := true
    polledUntilOld := rd8 r5 (SHRAM + MODE_OFFSET) == MODE_MASTER
    ret := (len : Int) }

/-- Outcome of `pruss_handler`: whether it returned `IRQ_HANDLED` (`true`) or
`IRQ_NONE` (`false`), whether it released `intr_completion`, and the event
index written to the host-interrupt disable register, if any. -/
structure HandlerOutcome where
  handled : Bool
  completed : Bool
  disabledWrite : Option Nat
deriving DecidableEq

/-- `pruss_handler(irq, info)`: computes `intr_bit = irq - hostirq_start + 2`;
reads the enable register (`hier`) and that event's `HIPIR` status word
(`hipir intr_bit`); if the event is not enabled and `HIPIR_NOPEND` is set it
returns `IRQ_NONE` untouched; otherwise it releases the completion exactly
when `intr_bit == PRU_EVTOUT`, writes `intr_bit` to the disable register and
returns `IRQ_HANDLED`.  (The handler is only invoked for its registered irqs,
`hostirq_start ≤ irq`.) -/
def pruss_handler (hostirq_start irq : Nat) (hier : Nat) (hipir : Nat → Nat) :
    HandlerOutcome :=
  let intr_bit := irq - hostirq_start + 2
  let intr_mask := 2 ^ intr_bit
  if hier / intr_mask % 2 = 0 ∧ hipir intr_bit / 2 ^ 31 % 2 = 1 then
    { handled := false, completed := false, disabledWrite := none }
  else
    { handled := true
      completed := intr_bit == PRU_EVTOUT
      disabledWrite := some intr_bit }

/-- Host-side session state: the `pruchar_mutex` and the `intr_completion`
signal (`completionDone = true` when the completion has fired). -/
structure Session where
  held : Bool
  completionDone : Bool
deriving DecidableEq

/-- `dev_open`: `mutex_trylock`; on contention returns `-EBUSY` leaving the
state untouched; otherwise takes the lock, `init_completion` resets the
completion signal, and returns 0. -/
def dev_open (s : Session) : Session × Int :=
  if s.held then (s, -16)
  else ({ held := true, completionDone := false }, 0)

/-- `dev_release`: `mutex_unlock` unconditionally, returns 0. -/
def dev_release (s : Session) : Session × Int :=
  ({ s with held := false }, 0)

/- Concrete inputs used to instantiate the theorems below. -/

/-- The all-zero region. -/
def regZero : Region := fun _ => 0

/-- The all-7 region. -/
def regSeven : Region := fun _ => 7

/-- A region distinguishing the base of the shared-RAM window (byte 7) from
the `SHRAM_READ_OFFSET` window (byte 9). -/
def readProbeRegion : Region := fun a =>
  if a = SHRAM + SHRAM_READ_OFFSET then 9 else if a = SHRAM then 7 else 0

/-- All five address pins sampled low. -/
def pins0 : Bool × Bool × Bool × Bool × Bool := (false, false, false, false, false)

theorem wr8_apply (r : Region) (off v a : Nat) :
    wr8 r off v a = if a = off then v % 256 else r a := rfl

theorem wr8_ne (r : Region) (off v a : Nat) (h : a ≠ off) : wr8 r off v a = r a := by
  simp [wr8, h]

theorem wr8_eq (r : Region) (off v : Nat) : wr8 r off v off = v % 256 := by
  simp [wr8]

theorem wrList_apply_out (vs : List Nat) (r : Region) (off a : Nat)
    (h : a < off ∨ off + vs.length ≤ a) : wrList r off vs a = r a := by
  induction vs generalizing r off with
  | nil => rfl
  | cons v vs ih =>
    show wrList (wr8 r off v) (off + 1) vs a = r a
    rw [ih (wr8 r off v) (off + 1) (by simp at h; omega)]
    exact wr8_ne r off v a (by simp at h; omega)

theorem wrList_apply_in (vs : List Nat) (r : Region) (off i : Nat) (h : i < vs.length) :
    wrList r off vs (off + i) = vs.getD i 0 % 256 := by
  induction vs generalizing r off i with
  | nil => simp at h
  | cons v vs ih =>
    cases i with
    | zero =>
      show wrList (wr8 r off v) (off + 1) vs off = (v :: vs).getD 0 0 % 256
      rw [wrList_apply_out vs _ (off + 1) off (Or.inl (by omega)), wr8_eq]
      rfl
    | succ i =>
      show wrList (wr8 r off v) (off + 1) vs (off + (i + 1)) = _
      rw [show off + (i + 1) = (off + 1) + i by omega,
        ih (wr8 r off v) (off + 1) i (by simp at h; omega)]
      rfl

theorem wr32le_apply_out (r : Region) (off v a : Nat) (h : a < off ∨ off + 4 ≤ a) :
    wr32le r off v a = r a := by
  simp only [wr32le]
  rw [wr8_ne _ _ _ _ (by omega), wr8_ne _ _ _ _ (by omega), wr8_ne _ _ _ _ (by omega),
    wr8_ne _ _ _ _ (by omega)]

theorem wr32le_apply_lane (r : Region) (off v k : Nat) (hk : k < 4) :
    wr32le r off v (off + k) = v % 2 ^ 32 / 2 ^ (8 * k) % 256 := by
  interval_cases k
  · simp only [wr32le, Nat.add_zero]
    rw [wr8_ne _ _ _ _ (by omega), wr8_ne _ _ _ _ (by omega), wr8_ne _ _ _ _ (by omega),
      wr8_eq]
    norm_num
  · simp only [wr32le]
    rw [wr8_ne _ _ _ _ (by omega), wr8_ne _ _ _ _ (by omega), wr8_eq]
  · simp only [wr32le]
    rw [wr8_ne _ _ _ _ (by omega), wr8_eq]
  · simp only [wr32le]
    rw [wr8_eq]

theorem cleanLoop_succ (p : Nat) (r : Region) (n : Nat) :
    cleanLoop p r (n + 1) = wr8 (cleanLoop p r n) (p + n) 0 := by
  simp [cleanLoop, List.range_succ]

theorem cleanLoop_apply (p : Nat) (r : Region) (n a : Nat) :
    cleanLoop p r n a = if p ≤ a ∧ a < p + n then 0 else r a := by
  induction n with
  | zero =>
    rw [if_neg (by omega)]
    rfl
  | succ n ih =>
    rw [cleanLoop_succ, wr8_apply]
    by_cases ha : a = p + n
    · rw [if_pos ha, if_pos (by omega)]
    · rw [if_neg ha, ih]
      by_cases hin : p ≤ a ∧ a < p + n
      · rw [if_pos hin, if_pos (by omega)]
      · rw [if_neg hin, if_neg (by omega)]

theorem map_range_getD (f : Nat → Nat) (n i : Nat) (h : i < n) :
    ((List.range n).map f).getD i 0 = f i := by
  rw [List.getD_eq_getElem _ _ (by simpa using h)]
  simp

theorem baudProfile_none (rate : Nat) (h : rate ∉ supportedRates) :
    baudProfile rate = none := by
  unfold baudProfile
  split <;> simp_all [supportedRates]

theorem dev_config_baudrate_hit (p : Nat) (r : Region)
    (rate brgconfig div_lsb div_msb one_byte_length_ns : Nat)
    (h : baudProfile rate = some (brgconfig, div_lsb, div_msb, one_byte_length_ns)) :
    (dev_config_baudrate p r rate).snd = 0 ∧
    (dev_config_baudrate p r rate).fst (p + BAUD_BRGCONFIG_OFFSET) = brgconfig % 256 ∧
    (dev_config_baudrate p r rate).fst (p + BAUD_LSB_OFFSET) = div_lsb % 256 ∧
    (dev_config_baudrate p r rate).fst (p + BAUD_MSB_OFFSET) = div_msb % 256 ∧
    (dev_config_baudrate p r rate).fst (p + BAUD_LENGTH_OFFSET) =
      one_byte_length_ns % 256 ∧
    (dev_config_baudrate p r rate).fst (p + BAUD_LENGTH_OFFSET + 1) =
      one_byte_length_ns / 2 ^ 8 % 256 ∧
    (dev_config_baudrate p r rate).fst (p + BAUD_LENGTH_OFFSET + 2) =
      one_byte_length_ns / 2 ^ 16 % 256 ∧
    ∀ a, a ∉ baudWriteOffsets p → (dev_config_baudrate p r rate).fst a = r a := by
  simp only [dev_config_baudrate, h, BAUD_BRGCONFIG_OFFSET, BAUD_LSB_OFFSET,
    BAUD_MSB_OFFSET, BAUD_LENGTH_OFFSET]
  refine ⟨trivial, ?_, ?_, ?_, ?_, ?_, ?_, ?_⟩
  · rw [wr8_ne _ _ _ _ (by omega), wr8_ne _ _ _ _ (by omega), wr8_ne _ _ _ _ (by omega),
      wr8_ne _ _ _ _ (by omega), wr8_ne _ _ _ _ (by omega), wr8_eq]
  · rw [wr8_ne _ _ _ _ (by omega), wr8_ne _ _ _ _ (by omega), wr8_ne _ _ _ _ (by omega),
      wr8_ne _ _ _ _ (by omega), wr8_eq]
  · rw [wr8_ne _ _ _ _ (by omega), wr8_ne _ _ _ _ (by omega), wr8_ne _ _ _ _ (by omega),
      wr8_eq]
  · rw [wr8_ne _ _ _ _ (by omega), wr8_ne _ _ _ _ (by omega), wr8_eq]
    omega
  · rw [wr8_ne _ _ _ _ (by omega), wr8_eq]
    omega
  · rw [wr8_eq]
    omega
  · intro a ha
    simp only [baudWriteOffsets, BAUD_BRGCONFIG_OFFSET, BAUD_LSB_OFFSET, BAUD_MSB_OFFSET,
      BAUD_LENGTH_OFFSET, List.mem_cons, List.not_mem_nil, or_false, not_or] at ha
    rw [wr8_ne _ _ _ _ (by omega), wr8_ne _ _ _ _ (by omega), wr8_ne _ _ _ _ (by omega),
      wr8_ne _ _ _ _ (by omega), wr8_ne _ _ _ _ (by omega), wr8_ne _ _ _ _ (by omega)]

set_option maxRecDepth 4000 in
/-- Claim C3: for every rate in the supported set, `__dev_config_baudrate`
writes exactly the six table-defined bytes (config byte at offset 2, divisor
LSB/MSB at offsets 3 and 4, and the 3-byte little-endian byte time at offsets
26..28 of the shared region) and returns success; for every rate outside the
set it returns `-EINVAL` and performs no region writes at all. -/
theorem baudrate_exact_writes (r : Region) (rate : Nat) :
    (rate ∈ supportedRates →
      ∃ brgconfig div_lsb div_msb one_byte_length_ns,
        baudProfile rate = some (brgconfig, div_lsb, div_msb, one_byte_length_ns) ∧
        (dev_config_baudrate SHRAM r rate).snd = 0 ∧
        (dev_config_baudrate SHRAM r rate).fst (SHRAM + BAUD_BRGCONFIG_OFFSET) =
          brgconfig % 256 ∧
        (dev_config_baudrate SHRAM r rate).fst (SHRAM + BAUD_LSB_OFFSET) = div_lsb % 256 ∧
        (dev_config_baudrate SHRAM r rate).fst (SHRAM + BAUD_MSB_OFFSET) = div_msb % 256 ∧
        (dev_config_baudrate SHRAM r rate).fst (SHRAM + BAUD_LENGTH_OFFSET) =
          one_byte_length_ns % 256 ∧
        (dev_config_baudrate SHRAM r rate).fst (SHRAM + BAUD_LENGTH_OFFSET + 1) =
          one_byte_length_ns / 2 ^ 8 % 256 ∧
        (dev_config_baudrate SHRAM r rate).fst (SHRAM + BAUD_LENGTH_OFFSET + 2) =
          one_byte_length_ns / 2 ^ 16 % 256 ∧
        ∀ a, a ∉ baudWriteOffsets SHRAM → (dev_config_baudrate SHRAM r rate).fst a = r a) ∧
    (rate ∉ supportedRates → dev_config_baudrate SHRAM r rate = (r, -22)) := by
  constructor
  · intro h
    fin_cases h <;>
      exact ⟨_, _, _, _, rfl, dev_config_baudrate_hit SHRAM r _ _ _ _ _ rfl⟩
  · intro h
    simp [dev_config_baudrate, baudProfile_none rate h]

/-- Witness for C3 at the concrete rates 9600 (supported) and 7 (unsupported). -/
theorem baudrate_exact_writes_witness :
    (dev_config_baudrate SHRAM regZero 9600).snd = 0 ∧
    (dev_config_baudrate SHRAM regZero 9600).fst (SHRAM + BAUD_BRGCONFIG_OFFSET) = 0x0a ∧
    (dev_config_baudrate SHRAM regZero 9600).fst (SHRAM + BAUD_LENGTH_OFFSET + 1) = 229 ∧
    dev_config_baudrate SHRAM regZero 7 = (regZero, -22) := by
  obtain ⟨brg, lsb, msb, ns, hprof, hret, hbrg, _, _, _, hns1, _, _⟩ :=
    (baudrate_exact_writes regZero 9600).1 (by decide)
  have hb : brg = 0x0a ∧ ns = 1041666 := by
    have h2 : (some (10, 134, 1, 1041666) : Option (Nat × Nat × Nat × Nat)) =
        some (brg, lsb, msb, ns) := by rw [← hprof]; rfl
    simp only [Option.some.injEq, Prod.mk.injEq] at h2
    omega
  refine ⟨hret, ?_, ?_, (baudrate_exact_writes regZero 7).2 (by decide)⟩
  · rw [hbrg, hb.1]
  · rw [hns1, hb.2]
    norm_num

/-- Claim C4: the `PRUSS_MODE` ioctl accepts only `'M'` (77) and `'S'` (83):
it writes the argument to the mode byte at shared-region offset 25, invokes
the sync-stop helper, and for `'S'` additionally sets the status byte at
offset 1 to `0x55`, returning 0; any other argument yields `-EINVAL` with the
region left untouched.  `SetMode('M')` immediately followed by `SetMode('S')`
leaves `status = 0x55`. -/
theorem set_mode_behavior (pins : Bool × Bool × Bool × Bool × Bool) (r : Region)
    (m : Nat) :
    ((m = 77 ∨ m = 83) →
      (dev_unlocked_ioctl pins r PRUSS_MODE m).snd = 0 ∧
      (dev_unlocked_ioctl pins r PRUSS_MODE m).fst (SHRAM + MODE_OFFSET) = m ∧
      (m = 83 →
        (dev_unlocked_ioctl pins r PRUSS_MODE m).fst (SHRAM + STATUS_OFFSET) = 0x55)) ∧
    ((m ≠ 77 ∧ m ≠ 83) → dev_unlocked_ioctl pins r PRUSS_MODE m = (r, -22)) ∧
    (dev_unlocked_ioctl pins
        (dev_unlocked_ioctl pins r PRUSS_MODE 77).fst PRUSS_MODE 83).fst
      (SHRAM + STATUS_OFFSET) = 0x55 := by
  refine ⟨?_, ?_, ?_⟩
  · rintro (rfl | rfl) <;>
      norm_num [dev_unlocked_ioctl, dev_set_sync_stop, rd8, wr8, SHRAM,
        PRUSS_SHAREDRAM_BASE, MODE_OFFSET, STATUS_OFFSET, OLD_MESSAGE, MODE_MASTER,
        PRUSS_MODE]
  · intro h
    simp [dev_unlocked_ioctl, PRUSS_MODE, h.1, h.2]
  · norm_num [dev_unlocked_ioctl, dev_set_sync_stop, rd8, wr8, SHRAM,
      PRUSS_SHAREDRAM_BASE, MODE_OFFSET, STATUS_OFFSET, OLD_MESSAGE, MODE_MASTER,
      PRUSS_MODE]

/-- Witness for C4: `SetMode('S')` on the all-zero region, and rejection of 99. -/
theorem set_mode_behavior_witness :
    (dev_unlocked_ioctl pins0 regZero PRUSS_MODE 83).snd = 0 ∧
    (dev_unlocked_ioctl pins0 regZero PRUSS_MODE 83).fst (SHRAM + MODE_OFFSET) = 83 ∧
    (dev_unlocked_ioctl pins0 regZero PRUSS_MODE 83).fst (SHRAM + STATUS_OFFSET) = 0x55 ∧
    dev_unlocked_ioctl pins0 regZero PRUSS_MODE 99 = (regZero, -22) := by
  obtain ⟨h1, h2, h3⟩ := (set_mode_behavior pins0 regZero 83).1 (Or.inr rfl)
  exact ⟨h1, h2, h3 rfl, (set_mode_behavior pins0 regZero 99).2.1 ⟨by decide, by decide⟩⟩

/-- Claim C10: `SetMode` discards the return value of the sync-stop helper it
invokes: for both accepted arguments the ioctl returns 0, although for `'S'`
the embedded `__dev_set_sync_stop` (called on the region whose mode byte was
just set) fails with `-EINVAL` because the mode byte already reads `'S'`. -/
theorem set_mode_ignores_sync_stop (pins : Bool × Bool × Bool × Bool × Bool)
    (r : Region) (m : Nat) (h : m = 77 ∨ m = 83) :
    (dev_unlocked_ioctl pins r PRUSS_MODE m).snd = 0 ∧
    (dev_set_sync_stop SHRAM (wr8 r (SHRAM + MODE_OFFSET) m)).snd =
      if m = 77 then 0 else -22 := by
  rcases h with rfl | rfl <;>
    norm_num [dev_unlocked_ioctl, dev_set_sync_stop, rd8, wr8, SHRAM,
      PRUSS_SHAREDRAM_BASE, MODE_OFFSET, STATUS_OFFSET, OLD_MESSAGE, MODE_MASTER,
      PRUSS_MODE]

/-- Witness for C10 at `m = 'S'` on the all-zero region. -/
theorem set_mode_ignores_sync_stop_witness :
    (dev_unlocked_ioctl pins0 regZero PRUSS_MODE 83).snd = 0 ∧
    (dev_set_sync_stop SHRAM (wr8 regZero (SHRAM + MODE_OFFSET) 83)).snd = -22 := by
  have h := set_mode_ignores_sync_stop pins0 regZero 83 (Or.inr rfl)
  exact ⟨h.1, by simpa using h.2⟩

/-- Claim C8: `dev_open` fails with `-EBUSY` leaving the session unchanged
when the lock is already held (so the second of two consecutive opens always
fails with `-EBUSY`); when not held it succeeds and resets the completion
signal; `dev_release` drops the lock unconditionally and returns 0. -/
theorem open_close_session (s : Session) :
    (s.held = true → dev_open s = (s, -16)) ∧
    (s.held = false →
      dev_open s = ({ held := true, completionDone := false }, 0)) ∧
    (dev_open (dev_open s).fst).snd = -16 ∧
    (dev_release s).fst.held = false ∧ (dev_release s).snd = 0 := by
  by_cases h : s.held <;> simp [dev_open, dev_release, h]

/-- Witness for C8: a fresh open succeeds and resets the completion; an open
on a held session fails with `-EBUSY`. -/
theorem open_close_session_witness :
    dev_open { held := false, completionDone := true } =
      ({ held := true, completionDone := false }, 0) ∧
    dev_open { held := true, completionDone := false } =
      ({ held := true, completionDone := false }, -16) := by
  exact ⟨(open_close_session ⟨false, true⟩).2.1 rfl,
    (open_close_session ⟨true, false⟩).1 rfl⟩

/-- Claim C9: `dev_read` never consults the caller-supplied length and offset
arguments: the outcome is identical for any two argument pairs, it always
hands 12,288 bytes to `copy_to_user`, and it returns 0 rather than a byte
count. -/
theorem read_ignores_args (r : Region) (len1 off1 len2 off2 : Nat) :
    dev_read r len1 off1 = dev_read r len2 off2 ∧
    (dev_read r len1 off1).copied = 12288 ∧
    (dev_read r len1 off1).message.length = 12288 ∧
    (dev_read r len1 off1).ret = 0 := by
  refine ⟨rfl, rfl, ?_, rfl⟩
  simp [dev_read, SZ_12K]

/-- Counterexample to C2 as stated: on `readProbeRegion` the message returned
by `dev_read` is not the window that starts at shared-region offset
`SHRAM_READ_OFFSET` (0x1800) — `dev_read` copies from shared-region offset 0
instead. -/
theorem read_window_counterexample :
    ¬ (∀ i, i < SZ_12K →
        (dev_read readProbeRegion 1 0).message.getD i 0 =
          rd8 readProbeRegion (SHRAM + SHRAM_READ_OFFSET + i)) := by
  intro h
  have h0 := h 0 (by norm_num [SZ_12K])
  simp only [dev_read] at h0
  rw [map_range_getD _ _ _ (by norm_num [SZ_12K])] at h0
  norm_num [rd8, readProbeRegion, SHRAM, PRUSS_SHAREDRAM_BASE, SHRAM_READ_OFFSET] at h0

/-- Claim C2 as amended: every `dev_read` call snapshots the 12,288 bytes
starting at shared-region offset 0 (not 0x1800) into the message buffer,
overwriting it wholesale, and delivers exactly that pattern unmodified,
regardless of the prior status or mode fields. -/
theorem read_window_snapshot (r : Region) (len offset : Nat) :
    (dev_read r len offset).message.length = SZ_12K ∧
    (∀ i, i < SZ_12K →
      (dev_read r len offset).message.getD i 0 = rd8 r (SHRAM + i)) ∧
    (dev_read r len offset).copied = SZ_12K ∧
    (dev_read r len offset).ret = 0 := by
  refine ⟨by simp [dev_read], ?_, rfl, rfl⟩
  intro i hi
  simp only [dev_read]
  exact map_range_getD _ _ _ hi

/-- Witness for the amended C2 on the probe region. -/
theorem read_window_snapshot_witness :
    (dev_read readProbeRegion 4 2).message.getD 0 0 = rd8 readProbeRegion (SHRAM + 0) := by
  exact (read_window_snapshot readProbeRegion 4 2).2.1 0 (by norm_num [SZ_12K])

/-- Claim C7: `pruss_handler` reports the interrupt as not-ours and takes no
action exactly when the event (bit `irq - hostirq_start + 2`) is neither
enabled in `HIER` nor pending (its `HIPIR` word has `HIPIR_NOPEND` set);
otherwise it writes that event index to the disable register and releases the
completion signal if and only if the index equals `PRU_EVTOUT` (3). -/
theorem handler_dispatch (hostirq_start irq hier : Nat) (hipir : Nat → Nat) :
    ((pruss_handler hostirq_start irq hier hipir).handled = false ∧
        (pruss_handler hostirq_start irq hier hipir).completed = false ∧
        (pruss_handler hostirq_start irq hier hipir).disabledWrite = none ↔
      ¬(hier / 2 ^ (irq - hostirq_start + 2) % 2 = 1) ∧
        ¬(hipir (irq - hostirq_start + 2) / 2 ^ 31 % 2 = 0)) ∧
    ((hier / 2 ^ (irq - hostirq_start + 2) % 2 = 1 ∨
        hipir (irq - hostirq_start + 2) / 2 ^ 31 % 2 = 0) →
      (pruss_handler hostirq_start irq hier hipir).handled = true ∧
      (pruss_handler hostirq_start irq hier hipir).disabledWrite =
        some (irq - hostirq_start + 2) ∧
      ((pruss_handler hostirq_start irq hier hipir).completed = true ↔
        irq - hostirq_start + 2 = PRU_EVTOUT)) := by
  have he : hier / 2 ^ (irq - hostirq_start + 2) % 2 < 2 :=
    Nat.mod_lt _ (by norm_num)
  have hf : hipir (irq - hostirq_start + 2) / 2 ^ 31 % 2 < 2 :=
    Nat.mod_lt _ (by norm_num)
  by_cases hc : hier / 2 ^ (irq - hostirq_start + 2) % 2 = 0 ∧
      hipir (irq - hostirq_start + 2) / 2 ^ 31 % 2 = 1
  · simp only [pruss_handler, if_pos hc]
    exact ⟨⟨fun _ => ⟨by omega, by omega⟩, fun _ => ⟨by trivial, by trivial, by trivial⟩⟩,
      fun hor => by exfalso; omega⟩
  · simp only [pruss_handler, if_neg hc]
    refine ⟨⟨fun hE => by simp at hE, fun hR => absurd ⟨by omega, by omega⟩ hc⟩,
      fun hor => ⟨by trivial, by trivial, ?_⟩⟩
    simp

/-- Witness for C7: enabled event at index 3 gets disabled and releases the
completion. -/
theorem handler_dispatch_witness :
    (pruss_handler 100 101 8 (fun _ => 0)).handled = true ∧
    (pruss_handler 100 101 8 (fun _ => 0)).disabledWrite = some 3 ∧
    ((pruss_handler 100 101 8 (fun _ => 0)).completed = true ↔
      (3 : Nat) = PRU_EVTOUT) := by
  have h := (handler_dispatch 100 101 8 (fun _ => 0)).2 (by norm_num)
  simpa using h

/-- Claim C5 (defect evidence): at argument `n = 1` the `PRUSS_TIMEOUT` ioctl
scales by 66600 but then writes `(66600 > 8) & 0xff = 1` into byte lane 1 (and
1 into lane 3), whereas the little-endian shift encoding the spec describes
requires `(66600 >> 8) & 0xff = 4` (and 0 in lane 3): the source uses
comparison operators where shifts were intended. -/
theorem timeout_comparison_not_shift :
    (dev_unlocked_ioctl pins0 regZero PRUSS_TIMEOUT 1).fst
      (SHRAM + TIMEOUT_OFFSET) = 0x28 ∧
    (dev_unlocked_ioctl pins0 regZero PRUSS_TIMEOUT 1).fst
      (SHRAM + TIMEOUT_OFFSET + 1) = 1 ∧
    (dev_unlocked_ioctl pins0 regZero PRUSS_TIMEOUT 1).fst
      (SHRAM + TIMEOUT_OFFSET + 3) = 1 ∧
    1 * 66600 % 2 ^ 32 / 2 ^ 8 % 256 = 4 ∧
    1 * 66600 % 2 ^ 32 / 2 ^ 24 % 256 = 0 ∧
    (dev_unlocked_ioctl pins0 regZero PRUSS_TIMEOUT 1).snd = 0 := by
  refine ⟨?_, ?_, ?_, by norm_num, by norm_num, rfl⟩ <;>
    norm_num [dev_unlocked_ioctl, wr8, SHRAM, PRUSS_SHAREDRAM_BASE, TIMEOUT_OFFSET,
      PRUSS_MODE, PRUSS_BAUDRATE, PRUSS_SYNC_STEP, PRUSS_CLEAN, PRUSS_SET_COUNTER,
      PRUSS_GET_HW_ADDRESS, PRUSS_TIMEOUT]

/-- Counterexample to C6 as stated: `PRUSS_CLEAN` does not zero the first 100
bytes at the base of the mapped I/O region — byte 0 of the region keeps its
value, while byte `SHRAM` (the base of the shared-RAM sub-window) is zeroed. -/
theorem clean_base_counterexample :
    ¬ (∀ a, a < 100 → (dev_unlocked_ioctl pins0 regSeven PRUSS_CLEAN 0).fst a = 0) := by
  intro h
  have h0 := h 0 (by norm_num)
  rw [show (dev_unlocked_ioctl pins0 regSeven PRUSS_CLEAN 0).fst 0 = 7 from rfl] at h0
  exact absurd h0 (by norm_num)

/-- Claim C6 as amended: the `PRUSS_CLEAN` ioctl zeroes exactly the first 100
bytes of the shared-RAM sub-window (absolute offsets `SHRAM .. SHRAM+99` of
the I/O region), returns 0, and leaves every other byte of the region
unchanged. -/
theorem clean_zeroes_shram_window (pins : Bool × Bool × Bool × Bool × Bool)
    (r : Region) (arg a : Nat) :
    (dev_unlocked_ioctl pins r PRUSS_CLEAN arg).snd = 0 ∧
    (SHRAM ≤ a → a < SHRAM + 100 →
      (dev_unlocked_ioctl pins r PRUSS_CLEAN arg).fst a = 0) ∧
    ((a < SHRAM ∨ SHRAM + 100 ≤ a) →
      (dev_unlocked_ioctl pins r PRUSS_CLEAN arg).fst a = r a) := by
  have hioctl : dev_unlocked_ioctl pins r PRUSS_CLEAN arg = (cleanLoop SHRAM r 100, 0) := by
    norm_num [dev_unlocked_ioctl, dev_clean_sram, PRUSS_MODE, PRUSS_BAUDRATE,
      PRUSS_SYNC_STEP, PRUSS_CLEAN]
  rw [hioctl]
  refine ⟨rfl, ?_, ?_⟩
  · intro h1 h2
    show cleanLoop SHRAM r 100 a = 0
    rw [cleanLoop_apply, if_pos ⟨h1, h2⟩]
  · intro h1
    show cleanLoop SHRAM r 100 a = r a
    rw [cleanLoop_apply, if_neg (by omega)]

/-- Witness for the amended C6: byte `SHRAM` is zeroed, byte 0 is untouched. -/
theorem clean_zeroes_shram_window_witness :
    (dev_unlocked_ioctl pins0 regSeven PRUSS_CLEAN 0).fst SHRAM = 0 ∧
    (dev_unlocked_ioctl pins0 regSeven PRUSS_CLEAN 0).fst 0 = regSeven 0 := by
  exact ⟨(clean_zeroes_shram_window pins0 regSeven 0 SHRAM).2.1 (le_refl _) (by norm_num),
    (clean_zeroes_shram_window pins0 regSeven 0 0).2.2 (Or.inl (by norm_num [SHRAM,
      PRUSS_SHAREDRAM_BASE]))⟩

theorem dev_write_region_untouched (pintc_base : Nat) (r : Region) (payload : List Nat)
    (a : Nat)
    (h1 : a < SHRAM + SHRAM_WRITE_OFFSET ∨
      SHRAM + SHRAM_WRITE_OFFSET + 4 + payload.length ≤ a)
    (h2 : a ≠ SHRAM + STATUS_OFFSET)
    (h3 : a < pintc_base + PRU_INTC_SECR1_REG ∨ pintc_base + PRU_INTC_SECR1_REG + 4 ≤ a)
    (h4 : a < pintc_base + PINTC_HIEISR ∨ pintc_base + PINTC_HIEISR + 4 ≤ a) :
    (dev_write pintc_base r payload).region a = r a := by
  simp only [dev_write]
  rw [wr32le_apply_out _ _ _ _ h4, wr32le_apply_out _ _ _ _ h3, wr8_ne _ _ _ _ h2,
    wrList_apply_out _ _ _ _ (by omega), wr32le_apply_out _ _ _ _ (by omega)]

/-- Claim C1: for any payload of length `L` (with the interrupt-controller
register block not aliasing the outbound message area), `dev_write` stores `L`
as a 4-byte little-endian field at shared-region offset 0x64, the `L` payload
bytes starting at offset 0x68, and `0xFF` in the status byte at offset 1; it
blocks on the completion signal; it clears the pending system event (the
32-bit value `1 << PRU_ARM_INTERRUPT` into `SECR1`) and re-enables the event
line (`1 << PRU_EVTOUT` into `HIEISR`); it busy-polls the status byte for
`0x55` exactly when the mode byte reads `'M'`; and it returns exactly `L`. -/
theorem dev_write_transaction (pintc_base : Nat) (r : Region) (payload : List Nat)
    (hsep : SHRAM + SHRAM_WRITE_OFFSET + 4 + payload.length ≤ pintc_base) :
    (∀ k, k < 4 →
      (dev_write pintc_base r payload).region (SHRAM + SHRAM_WRITE_OFFSET + k) =
        payload.length % 2 ^ 32 / 2 ^ (8 * k) % 256) ∧
    (∀ i, i < payload.length →
      (dev_write pintc_base r payload).region (SHRAM + SHRAM_WRITE_OFFSET + 4 + i) =
        payload.getD i 0 % 256) ∧
    (dev_write pintc_base r payload).region (SHRAM + STATUS_OFFSET) = MESSAGE_TO_SEND ∧
    (dev_write pintc_base r payload).waited = true ∧
    (∀ k, k < 4 →
      (dev_write pintc_base r payload).region (pintc_base + PRU_INTC_SECR1_REG + k) =
        2 ^ PRU_ARM_INTERRUPT % 2 ^ 32 / 2 ^ (8 * k) % 256) ∧
    (∀ k, k < 4 →
      (dev_write pintc_base r payload).region (pintc_base + PINTC_HIEISR + k) =
        2 ^ PRU_EVTOUT % 2 ^ 32 / 2 ^ (8 * k) % 256) ∧
    ((dev_write pintc_base r payload).polledUntilOld = true ↔
      rd8 r (SHRAM + MODE_OFFSET) = MODE_MASTER) ∧
    (dev_write pintc_base r payload).ret = (payload.length : Int) := by
  simp only [dev_write, SHRAM, PRUSS_SHAREDRAM_BASE, SHRAM_WRITE_OFFSET, STATUS_OFFSET,
    MODE_OFFSET, PRU_INTC_SECR1_REG, PINTC_HIEISR, MESSAGE_TO_SEND, MODE_MASTER,
    PRU_ARM_INTERRUPT, PRU_EVTOUT] at hsep ⊢
  refine ⟨?_, ?_, ?_, ?_, ?_, ?_, ?_, ?_⟩
  · intro k hk
    rw [wr32le_apply_out _ _ _ _ (by omega), wr32le_apply_out _ _ _ _ (by omega),
      wr8_ne _ _ _ _ (by omega), wrList_apply_out _ _ _ _ (by omega)]
    exact wr32le_apply_lane _ _ _ _ hk
  · intro i hi
    rw [wr32le_apply_out _ _ _ _ (by omega), wr32le_apply_out _ _ _ _ (by omega),
      wr8_ne _ _ _ _ (by omega)]
    exact wrList_apply_in _ _ _ _ hi
  · rw [wr32le_apply_out _ _ _ _ (by omega), wr32le_apply_out _ _ _ _ (by omega),
      wr8_eq]
  · trivial
  · intro k hk
    rw [wr32le_apply_out _ _ _ _ (by omega)]
    exact wr32le_apply_lane _ _ _ _ hk
  · intro k hk
    exact wr32le_apply_lane _ _ _ _ hk
  · simp only [rd8]
    rw [wr32le_apply_out _ _ _ _ (by omega), wr32le_apply_out _ _ _ _ (by omega),
      wr8_ne _ _ _ _ (by omega), wrList_apply_out _ _ _ _ (by omega),
      wr32le_apply_out _ _ _ _ (by omega)]
    exact beq_iff_eq
  · trivial

/-- Witness for C1: payload `[1, 2, 3]` on the all-zero region with the
interrupt controller at its hardware offset 0x20000. -/
theorem dev_write_transaction_witness :
    (dev_write 0x20000 regZero [1, 2, 3]).region (SHRAM + SHRAM_WRITE_OFFSET) = 3 ∧
    (dev_write 0x20000 regZero [1, 2, 3]).region (SHRAM + SHRAM_WRITE_OFFSET + 4 + 1) = 2 ∧
    (dev_write 0x20000 regZero [1, 2, 3]).region (SHRAM + STATUS_OFFSET) = 0xff ∧
    (dev_write 0x20000 regZero [1, 2, 3]).ret = 3 := by
  have h := dev_write_transaction 0x20000 regZero [1, 2, 3] (by decide)
  refine ⟨?_, ?_, ?_, ?_⟩
  · have h0 := h.1 0 (by norm_num)
    simpa using h0
  · have h1 := h.2.1 1 (by norm_num)
    simpa using h1
  · simpa [MESSAGE_TO_SEND] using h.2.2.1
  · simpa using h.2.2.2.2.2.2.2
